import Mathlib

/-!
Verification of the AQI-Prediction application (`src/app.py`).

The application loads a serialized regression model once per process
(`load_model`, cached by the `st.cache_resource` decorator), derives calendar
features from a date and a time with CPython `datetime` semantics, assembles a
fixed 14-element feature vector (`user_features`), calls the model, and shows
the scalar prediction.  An expander additionally shows feature importances
sorted with pandas `sort_values(by='Importance', ascending=False)`.

This file embeds those pieces shallowly:

* the calendar arithmetic follows CPython `datetime.py` (`_ymd2ord`,
  `date.weekday`, `date.isocalendar`, `_isoweek1monday`) literally, over `Nat`
  and `Int`; Python `//` and `%` on a positive divisor agree with `Int./` and
  `Int.%` here (both are floor division and a nonnegative remainder);
* numeric widget values are embedded as `ℚ` (they are passed through to the
  model untouched, so exact arithmetic is faithful);
* the opaque model handle is a structure holding its `predict` behaviour as a
  function into `Except` (an exception raised by `predict` is an `Except.error`
  carrying the exception message) and its optional `feature_importances_`
  attribute as an `Option`;
* `pandas.DataFrame.sort_values(ascending=False, kind='quicksort')` dispatches
  to `nargsort`, which argsorts ascending and then reverses the indexer; for
  arrays shorter than 16 elements numpy's introsort runs its insertion-sort
  base case, which is a stable ascending sort.  The 14-row frame built by the
  app is therefore sorted by "stable ascending insertion sort, then reverse",
  embedded below via `List.insertionSort`;
* the `st.cache_resource` decorator is embedded as explicit state passing of a
  `cache : Option α`: a call with an empty cache runs the wrapped function and
  fills the cache, a call with a filled cache returns the cached value.
-/

namespace AQIApp

/-! ## Calendar arithmetic (CPython `datetime` semantics) -/

/-- Leap-year test, as in CPython `datetime._is_leap`:
`year % 4 == 0 and (year % 100 != 0 or year % 400 == 0)`. -/
def isLeapYear (y : Nat) : Bool :=
  y % 4 == 0 && (y % 100 != 0 || y % 400 == 0)

/-- Days in a month, as in CPython `datetime._days_in_month`. -/
def daysInMonth (y m : Nat) : Nat :=
  if m = 2 then (if isLeapYear y then 29 else 28)
  else if m = 4 ∨ m = 6 ∨ m = 9 ∨ m = 11 then 30
  else 31

/-- Days in the year before the first day of month `m`, as in CPython
`datetime._days_before_month` (table `_DAYS_BEFORE_MONTH` plus the leap-day
adjustment for months after February). -/
def daysBeforeMonth (y m : Nat) : Nat :=
  (match m with
   | 2 => 31 | 3 => 59 | 4 => 90 | 5 => 120 | 6 => 151 | 7 => 181
   | 8 => 212 | 9 => 243 | 10 => 273 | 11 => 304 | 12 => 334
   | _ => 0)
  + (if 2 < m ∧ isLeapYear y then 1 else 0)

/-- Days before January 1 of year `y`, as in CPython
`datetime._days_before_year`: `y*365 + y//4 - y//100 + y//400` for `y` the
preceding year.  The subtraction is reordered so that it never truncates in
`Nat` (`(y-1)/100 ≤ (y-1)/4`). -/
def daysBeforeYear (y : Nat) : Nat :=
  365 * (y - 1) + (y - 1) / 4 + (y - 1) / 400 - (y - 1) / 100

/-- Proleptic-Gregorian ordinal of a date, as in CPython `datetime._ymd2ord`
(January 1 of year 1 has ordinal 1). -/
def ymd2ord (y m d : Nat) : Nat :=
  daysBeforeYear y + daysBeforeMonth y m + d

/-- A `datetime.date` value: the date picked in the date widget. -/
structure PyDate where
  year : Nat
  month : Nat
  day : Nat
deriving DecidableEq

/-- The dates `datetime.date` can represent: years 1..9999, month 1..12, day
within the month. -/
def PyDate.valid (d : PyDate) : Prop :=
  1 ≤ d.year ∧ d.year ≤ 9999 ∧ 1 ≤ d.month ∧ d.month ≤ 12 ∧
    1 ≤ d.day ∧ d.day ≤ daysInMonth d.year d.month

instance (d : PyDate) : Decidable d.valid := by
  unfold PyDate.valid; infer_instance

/-- A `datetime.time` value: the time picked in the time widget. -/
structure PyTime where
  hour : Nat
  minute : Nat
  second : Nat
deriving DecidableEq

/-- The times `datetime.time` can represent (microseconds omitted: nothing in
the app reads below seconds). -/
def PyTime.valid (t : PyTime) : Prop :=
  t.hour ≤ 23 ∧ t.minute ≤ 59 ∧ t.second ≤ 59

/-- Python `datetime.weekday()`: Monday = 0 .. Sunday = 6, computed from the ordinal
as in CPython (`(toordinal + 6) % 7`). -/
def pyWeekday (d : PyDate) : Nat :=
  (ymd2ord d.year d.month d.day + 6) % 7

/-- Ordinal of the Monday starting ISO week 1 of year `y`, as in CPython
`datetime._isoweek1monday` (`THURSDAY = 3`). -/
def isoweek1monday (y : Nat) : Int :=
  let firstday : Int := ymd2ord y 1 1
  let firstweekday : Int := (firstday + 6) % 7
  let week1monday : Int := firstday - firstweekday
  if 3 < firstweekday then week1monday + 7 else week1monday

/-- Python `datetime.date.isocalendar().week`, as in CPython `date.isocalendar`:
divide the offset from week 1's Monday by 7, move into the previous year when
negative, and into the next year when in week 52+ but on or after the next
year's week 1 Monday. -/
def isocalendarWeek (d : PyDate) : Int :=
  let today : Int := ymd2ord d.year d.month d.day
  let week : Int := (today - isoweek1monday d.year) / 7
  if week < 0 then
    (today - isoweek1monday (d.year - 1)) / 7 + 1
  else if 52 ≤ week ∧ isoweek1monday (d.year + 1) ≤ today then
    1
  else
    week + 1

/-- The six calendar-derived features extracted in `main` (app.py lines
163-169) from `datetime.datetime.combine(d, t)`. -/
structure CalendarFeatures where
  year : Nat
  month : Nat
  day : Nat
  hour : Nat
  day_of_week : Nat
  week_of_year : Int
deriving DecidableEq

/-- The calendar-feature derivation of `main` (app.py lines 163-169):
`combine` pairs the date and the time, `year`/`month`/`day` come from the
date, `hour` from the time, `weekday()` and `isocalendar().week` from the
date. -/
def deriveCalendar (d : PyDate) (t : PyTime) : CalendarFeatures :=
  { year := d.year, month := d.month, day := d.day, hour := t.hour,
    day_of_week := pyWeekday d, week_of_year := isocalendarWeek d }

/-! ## Model handle, feature vector, prediction -/

/-- The opaque model object returned by `joblib.load`.  `predictBatch` is the
`model.predict` method on a batch (a list of rows); an exception raised inside
`predict` is an `Except.error` carrying the exception message.
`featureImportances` is `none` when reading the attribute
`model.feature_importances_` raises `AttributeError`. -/
structure ModelHandle where
  predictBatch : List (List ℚ) → Except String (List ℚ)
  featureImportances : Option (List ℚ)

/-- The feature-vector assembly of `main` (app.py lines 172-176): a
single-row batch `[[s1_co, s2_nmhc, s3_nox, s4_no2, s5_o3, temp, rh, ah,
year, month, day, hour, day_of_week, week_of_year]]`. -/
def user_features (s1_co s2_nmhc s3_nox s4_no2 s5_o3 temp rh ah : ℚ)
    (c : CalendarFeatures) : List (List ℚ) :=
  [[s1_co, s2_nmhc, s3_nox, s4_no2, s5_o3,
    temp, rh, ah,
    (c.year : ℚ), (c.month : ℚ), (c.day : ℚ), (c.hour : ℚ),
    (c.day_of_week : ℚ), (c.week_of_year : ℚ)]]

/-- What a submission renders (app.py lines 178-191): on success the
predicted value `prediction[0]` (before the 2-decimal display formatting), on
any caught exception the `st.error` message. -/
inductive SubmissionOutcome where
  | success (aqi : ℚ)
  | failure (message : String)
deriving DecidableEq

/-- The `try` block of `main` (app.py lines 178-191): run
`model.predict(user_features)`, index the result at 0, and render; any
exception in the block — one raised by `predict`, or the `IndexError` from
`prediction[0]` on an empty result — is caught by `except Exception as e` and
rendered via `st.error(f"An error occurred during prediction: {e}")`. -/
def predictSubmission (model : ModelHandle) (features : List (List ℚ)) :
    SubmissionOutcome :=
  match model.predictBatch features with
  | .error e => .failure ("An error occurred during prediction: " ++ e)
  | .ok preds =>
    match preds.head? with
    | some aqi => .success aqi
    | none => .failure ("An error occurred during prediction: " ++
        "index 0 is out of bounds for axis 0 with size 0")

/-! ## Feature importances -/

/-- The `feature_names` list of `main` (app.py lines 105-110), in training
order. -/
def feature_names : List String :=
  ["Tin oxide sensor (PT08.S1)", "Titania sensor (PT08.S2)",
   "Tungsten oxide sensor (PT08.S3)", "Tungsten oxide sensor (PT08.S4)",
   "Indium oxide sensor (PT08.S5)", "Temperature (°C)",
   "Relative Humidity (%)", "Absolute Humidity", "Year", "Month", "Day",
   "Hour", "Day of Week", "Week of Year"]

/-- One row of the importance frame: a feature name paired with its weight. -/
structure ImportanceRow where
  feature : String
  importance : ℚ
deriving DecidableEq

/-- Row comparison used by the sort: ascending by the `Importance` column. -/
def importanceLE (a b : ImportanceRow) : Prop :=
  a.importance ≤ b.importance

instance : DecidableRel importanceLE := fun a b =>
  inferInstanceAs (Decidable (a.importance ≤ b.importance))

/-- Pandas `DataFrame.sort_values(by='Importance', ascending=False)` as it executes
on this frame: `nargsort` reverses both the values and the index array before
argsorting when `ascending=False`, argsorts ascending (numpy introsort, whose
insertion-sort base case handles the whole column for fewer than 16 elements
and is a stable ascending sort), and reverses the resulting indexer
afterwards (pandas GH 6399, pinned by the pandas test
`test_sort_values_stable_descending_sort`).  The double reversal makes the
descending sort stable: ties keep their original order.  Net effect on a
14-row frame: reverse, stable ascending insertion sort, reverse. -/
def sort_values_importance_desc (rows : List ImportanceRow) :
    List ImportanceRow :=
  (List.insertionSort importanceLE rows.reverse).reverse

/-- The importance frame of `main` (app.py lines 114-117): zip the fixed
names with `model.feature_importances_` and sort by importance descending. -/
def feature_importance_df (importances : List ℚ) : List ImportanceRow :=
  sort_values_importance_desc
    (List.zipWith (fun n w => ⟨n, w⟩) feature_names importances)

/-- What the expander body renders (app.py lines 102-125): the sorted frame,
or the `st.warning` branch when reading `model.feature_importances_` raised
`AttributeError`. -/
inductive ImportancesOutcome where
  | table (rows : List ImportanceRow)
  | unsupported (warning : String)
deriving DecidableEq

/-- The feature-importance section of `main` (app.py lines 102-125): build
and chart the sorted frame; when the model lacks the attribute, the
`except AttributeError` branch shows
`st.warning("The loaded model does not support feature importances.")`. -/
def importancesSection (model : ModelHandle) : ImportancesOutcome :=
  match model.featureImportances with
  | some imps => .table (feature_importance_df imps)
  | none => .unsupported "The loaded model does not support feature importances."

/-! ## Model loading and caching -/

/-- What happens inside `joblib.load(model_path)` for a given path and
filesystem state: success with a handle, `FileNotFoundError`, or any other
exception (corrupt file, version mismatch, ...) with message `msg`. -/
inductive LoadOutcome where
  | ok (model : ModelHandle)
  | fileNotFound
  | otherError (msg : String)

/-- Function `load_model` (app.py lines 8-22): try `joblib.load(model_path)`; on
`FileNotFoundError` show two `st.error` messages and return `None`; on any
other exception show one `st.error` message and return `None`.  The result is
the list of `st.error` messages shown together with the returned value.  The
single quotes around the path in the original f-strings are elided here. -/
def load_model (model_path : String) (outcome : LoadOutcome) :
    List String × Option ModelHandle :=
  match outcome with
  | .ok model => ([], some model)
  | .fileNotFound =>
    (["Error: Model file not found at " ++ model_path ++ ".",
      "Please ensure the rf_model.pkl file is in the same directory as app.py."],
     none)
  | .otherError msg =>
    (["An error occurred while loading the model: " ++ msg], none)

/-- The guard in `main` (app.py lines 94-98): when `load_model` returned
`None` the function returns before any prediction UI is rendered. -/
def mainReachesPredictionUI (loaded : Option ModelHandle) : Bool :=
  loaded.isSome

/-- One call through the `st.cache_resource` wrapper around `load_model`:
with an empty cache the wrapped function runs and its value is stored; with a
filled cache the stored value is returned and the wrapped function does not
run.  Returns the call's value, the new cache, and whether the wrapped
function ran. -/
def cachedCall {α : Type} (f : Unit → α) (cache : Option α) :
    α × Option α × Bool :=
  match cache with
  | some v => (v, some v, false)
  | none => let v := f (); (v, some v, true)

/-- The values returned by `n` successive calls through the cache wrapper. -/
def cachedResults {α : Type} (f : Unit → α) : Nat → Option α → List α
  | 0, _ => []
  | n + 1, cache =>
    let r := cachedCall f cache
    r.1 :: cachedResults f n r.2.1

/-- How many of `n` successive calls through the cache wrapper actually ran
the wrapped function. -/
def cachedRuns {α : Type} (f : Unit → α) : Nat → Option α → Nat
  | 0, _ => 0
  | n + 1, cache =>
    let r := cachedCall f cache
    (if r.2.2 then 1 else 0) + cachedRuns f n r.2.1

/-! ## Concrete model handles used as witnesses -/

/-- A model whose predict returns the single-element batch output `[3]`. -/
def constPredModel : ModelHandle :=
  { predictBatch := fun _ => .ok [3], featureImportances := none }

/-- A model whose predict always raises, message "shape mismatch". -/
def failingPredModel : ModelHandle :=
  { predictBatch := fun _ => .error "shape mismatch", featureImportances := none }

/-- A model exposing importances alongside the same predict as
`constPredModel`. -/
def withImportancesModel : ModelHandle :=
  { predictBatch := fun _ => .ok [3],
    featureImportances := some [1, 1, 0, 0, 0, 0, 0, 0, 0, 0, 0, 0, 0, 0] }

/-! ## Spec-side sort (refinement target for the importances claim) -/

/-- Row comparison for a descending sort: `a` may precede `b` when its weight
is at least `b`'s. -/
def importanceGE (a b : ImportanceRow) : Prop :=
  b.importance ≤ a.importance

instance : DecidableRel importanceGE := fun a b =>
  inferInstanceAs (Decidable (b.importance ≤ a.importance))

/-- The sort the spec describes, built from the spec's words rather than the
source: a stable sort by weight descending, so tied entries keep their
original relative order.  Insertion sort with `importanceGE` places an
earlier element before a later tied one and is exactly such a sort. -/
def specStableSortDesc (rows : List ImportanceRow) : List ImportanceRow :=
  List.insertionSort importanceGE rows

instance : IsTotal ImportanceRow importanceLE :=
  ⟨fun a b => le_total a.importance b.importance⟩

instance : IsTrans ImportanceRow importanceLE :=
  ⟨fun _ _ _ hab hbc => le_trans hab hbc⟩

/-- Insertion behind ties: place `x` after every element whose weight is at
most `x`'s, in front of the first strictly heavier element.  This is where a
stable ascending sort puts the last element of its input, and it is the
bridge between the two sides of the double reversal. -/
def orderedInsertAfterTies (x : ImportanceRow) : List ImportanceRow → List ImportanceRow
  | [] => [x]
  | y :: ys =>
    if importanceLE y x then y :: orderedInsertAfterTies x ys else x :: y :: ys

/-! ## Sanity checks against Python `datetime` outputs -/

example : pyWeekday ⟨2023, 7, 4⟩ = 1 := by decide
example : isocalendarWeek ⟨2023, 7, 4⟩ = 27 := by decide
example : pyWeekday ⟨2024, 3, 15⟩ = 4 := by decide
example : isocalendarWeek ⟨2024, 3, 15⟩ = 11 := by decide
example : ymd2ord 2023 7 4 = 738705 := by decide
example : isocalendarWeek ⟨2021, 1, 1⟩ = 53 := by decide
example : isocalendarWeek ⟨2023, 1, 1⟩ = 52 := by decide
example : isocalendarWeek ⟨2024, 12, 30⟩ = 1 := by decide
example : isocalendarWeek ⟨2020, 12, 31⟩ = 53 := by decide

/-- Ties keep their original order, as in the pandas stable-descending-sort
test: with the two leading weights tied, the tin oxide sensor stays in front
of the titania sensor. -/
example :
    (feature_importance_df [1, 1, 0, 0, 0, 0, 0, 0, 0, 0, 0, 0, 0, 0]).map
        (fun r => r.feature) =
      feature_names := by
  decide

/-! ## Cache lemmas -/

theorem cachedResults_some {α : Type} (f : Unit → α) (v : α) :
    ∀ n : Nat, cachedResults f n (some v) = List.replicate n v := by
  intro n
  induction n with
  | zero => rfl
  | succ m ih => simp [cachedResults, cachedCall, ih, List.replicate_succ]

theorem cachedRuns_some {α : Type} (f : Unit → α) (v : α) :
    ∀ n : Nat, cachedRuns f n (some v) = 0 := by
  intro n
  induction n with
  | zero => rfl
  | succ m ih => simp [cachedRuns, cachedCall, ih]

/-! ## Claim theorems -/

/-- C1: for every combination of numeric sensor, environmental and calendar
inputs, `user_features` is a single-row batch whose row has exactly 14
entries, in the fixed order sensor A..E, temperature, relative humidity,
absolute humidity, year, month, day, hour, day of week, ISO week. -/
theorem user_features_vector_shape
    (s1_co s2_nmhc s3_nox s4_no2 s5_o3 temp rh ah : ℚ) (c : CalendarFeatures) :
    (user_features s1_co s2_nmhc s3_nox s4_no2 s5_o3 temp rh ah c).length = 1 ∧
    ((user_features s1_co s2_nmhc s3_nox s4_no2 s5_o3 temp rh ah c).getD 0 []).length
      = 14 ∧
    (user_features s1_co s2_nmhc s3_nox s4_no2 s5_o3 temp rh ah c).getD 0 [] =
      [s1_co, s2_nmhc, s3_nox, s4_no2, s5_o3, temp, rh, ah,
       (c.year : ℚ), (c.month : ℚ), (c.day : ℚ), (c.hour : ℚ),
       (c.day_of_week : ℚ), (c.week_of_year : ℚ)] :=
  ⟨rfl, rfl, rfl⟩

/-- C2: with sensors `[1100, 950, 870, 1500, 1100]`, temp 21.5, rh 45.0,
ah 0.9, date 2023-07-04, time 08:30, the assembled batch is
`[[1100, 950, 870, 1500, 1100, 21.5, 45.0, 0.9, 2023, 7, 4, 8, 1, 27]]`, and
whenever the model's predict returns a nonempty output on that batch the
submission renders its first element. -/
theorem scenario_20230704_prediction (model : ModelHandle) (y : ℚ) (rest : List ℚ)
    (h : model.predictBatch (user_features 1100 950 870 1500 1100 21.5 45.0 0.9
        (deriveCalendar ⟨2023, 7, 4⟩ ⟨8, 30, 0⟩)) = .ok (y :: rest)) :
    user_features 1100 950 870 1500 1100 21.5 45.0 0.9
        (deriveCalendar ⟨2023, 7, 4⟩ ⟨8, 30, 0⟩) =
      [[1100, 950, 870, 1500, 1100, 21.5, 45.0, 0.9, 2023, 7, 4, 8, 1, 27]] ∧
    predictSubmission model
        (user_features 1100 950 870 1500 1100 21.5 45.0 0.9
          (deriveCalendar ⟨2023, 7, 4⟩ ⟨8, 30, 0⟩)) = .success y := by
  have hc : deriveCalendar ⟨2023, 7, 4⟩ ⟨8, 30, 0⟩ =
      { year := 2023, month := 7, day := 4, hour := 8,
        day_of_week := 1, week_of_year := 27 } := by
    decide
  constructor
  · rw [hc]
    norm_num [user_features]
  · unfold predictSubmission
    rw [h]
    rfl

/-- Witness for C2 at the constant model returning `[3]`. -/
theorem scenario_20230704_prediction_witness :
    user_features 1100 950 870 1500 1100 21.5 45.0 0.9
        (deriveCalendar ⟨2023, 7, 4⟩ ⟨8, 30, 0⟩) =
      [[1100, 950, 870, 1500, 1100, 21.5, 45.0, 0.9, 2023, 7, 4, 8, 1, 27]] ∧
    predictSubmission constPredModel
        (user_features 1100 950 870 1500 1100 21.5 45.0 0.9
          (deriveCalendar ⟨2023, 7, 4⟩ ⟨8, 30, 0⟩)) = .success 3 :=
  scenario_20230704_prediction constPredModel 3 [] rfl

/-- C4: date 2024-03-15 combined with time 12:00 yields year 2024, month 3,
day 15, hour 12, day of week 4 (Friday) and ISO week 11. -/
theorem scenario_20240315_calendar :
    deriveCalendar ⟨2024, 3, 15⟩ ⟨12, 0, 0⟩ =
      { year := 2024, month := 3, day := 15, hour := 12,
        day_of_week := 4, week_of_year := 11 } := by
  decide

/-- C6: a missing file and any other load failure both return `None` to
`main` after showing `st.error` messages; the two failure kinds show
distinguishable error output; and `main` stops before the prediction UI in
both cases. -/
theorem load_model_failure_modes (path msg : String) :
    (load_model path .fileNotFound).2 = none ∧
    (load_model path (.otherError msg)).2 = none ∧
    (load_model path .fileNotFound).1 ≠ (load_model path (.otherError msg)).1 ∧
    mainReachesPredictionUI (load_model path .fileNotFound).2 = false ∧
    mainReachesPredictionUI (load_model path (.otherError msg)).2 = false := by
  refine ⟨rfl, rfl, ?_, rfl, rfl⟩
  intro hcontra
  have hlen := congrArg List.length hcontra
  simp [load_model] at hlen

/-- Witness for C6 at the default path and the message "corrupt file". -/
theorem load_model_failure_modes_witness :
    (load_model "rf_model.pkl" .fileNotFound).2 = none ∧
    (load_model "rf_model.pkl" (.otherError "corrupt file")).2 = none ∧
    (load_model "rf_model.pkl" .fileNotFound).1 ≠
      (load_model "rf_model.pkl" (.otherError "corrupt file")).1 ∧
    mainReachesPredictionUI (load_model "rf_model.pkl" .fileNotFound).2 = false ∧
    mainReachesPredictionUI
      (load_model "rf_model.pkl" (.otherError "corrupt file")).2 = false :=
  load_model_failure_modes "rf_model.pkl" "corrupt file"

/-- C7: whenever the model's predict raises, the submission handler catches
the exception and renders the `st.error` message carrying the underlying
message; the handler returns normally. -/
theorem prediction_error_caught (model : ModelHandle) (features : List (List ℚ))
    (e : String) (h : model.predictBatch features = .error e) :
    predictSubmission model features =
      .failure ("An error occurred during prediction: " ++ e) := by
  unfold predictSubmission
  rw [h]

/-- Witness for C7 at the always-failing model. -/
theorem prediction_error_caught_witness :
    predictSubmission failingPredModel [] =
      .failure ("An error occurred during prediction: " ++ "shape mismatch") :=
  prediction_error_caught failingPredModel [] "shape mismatch" rfl

/-- C8: a model without the importances attribute makes the expander body
show the `st.warning` text, and the submission handler's output depends only
on the predict behaviour, so the prediction flow is unaffected. -/
theorem importances_unsupported_nonfatal (model m2 : ModelHandle)
    (features : List (List ℚ)) (h : model.featureImportances = none)
    (hp : m2.predictBatch = model.predictBatch) :
    importancesSection model =
      .unsupported "The loaded model does not support feature importances." ∧
    predictSubmission m2 features = predictSubmission model features := by
  constructor
  · unfold importancesSection
    rw [h]
  · unfold predictSubmission
    rw [hp]

/-- Witness for C8: the failing-importances model against the model with
importances sharing the same predict behaviour. -/
theorem importances_unsupported_nonfatal_witness :
    importancesSection constPredModel =
      .unsupported "The loaded model does not support feature importances." ∧
    predictSubmission withImportancesModel [] = predictSubmission constPredModel [] :=
  importances_unsupported_nonfatal constPredModel withImportancesModel [] rfl rfl

/-- C9: across any number of calls through the `st.cache_resource` wrapper
starting from an empty cache, every call returns the value of the single
underlying `load_model` evaluation, and the wrapped loader runs at most
once. -/
theorem model_loaded_once (path : String) (outcome : LoadOutcome) (n : Nat) :
    cachedResults (fun _ => load_model path outcome) n none =
      List.replicate n (load_model path outcome) ∧
    cachedRuns (fun _ => load_model path outcome) n none ≤ 1 := by
  cases n with
  | zero => exact ⟨rfl, by simp [cachedRuns]⟩
  | succ m =>
    refine ⟨?_, ?_⟩
    · simp [cachedResults, cachedCall, cachedResults_some, List.replicate_succ]
    · simp [cachedRuns, cachedCall, cachedRuns_some]

/-! ### Calendar range lemmas (for the derivation claim) -/

theorem isLeapYear_iff (y : Nat) :
    isLeapYear y = true ↔ (y % 4 = 0 ∧ (y % 100 ≠ 0 ∨ y % 400 = 0)) := by
  simp [isLeapYear]

set_option maxHeartbeats 1000000 in
/-- Lengths of consecutive years: 366 days before a leap year's successor. -/
theorem daysBeforeYear_succ (y : Nat) (h : 1 ≤ y) :
    daysBeforeYear (y + 1) =
      daysBeforeYear y + 365 + (if isLeapYear y then 1 else 0) := by
  unfold daysBeforeYear
  by_cases hL : isLeapYear y = true
  · have hm := (isLeapYear_iff y).mp hL
    rw [if_pos hL]
    omega
  · have hm : ¬ (y % 4 = 0 ∧ (y % 100 ≠ 0 ∨ y % 400 = 0)) :=
      fun hc => hL ((isLeapYear_iff y).mpr hc)
    rw [if_neg hL]
    omega

/-- Within a year, the day offset of a valid month/day pair lies between 1
and the year's length. -/
theorem daysBeforeMonth_add_day_bounds (y m dd : Nat) (h1 : 1 ≤ m) (h2 : m ≤ 12)
    (h3 : 1 ≤ dd) (h4 : dd ≤ daysInMonth y m) :
    1 ≤ daysBeforeMonth y m + dd ∧
    daysBeforeMonth y m + dd ≤ 365 + (if isLeapYear y then 1 else 0) := by
  refine ⟨by omega, ?_⟩
  by_cases hL : isLeapYear y = true <;>
    interval_cases m <;>
    simp_all [daysBeforeMonth, daysInMonth] <;>
    omega

theorem ymd2ord_jan1 (y : Nat) : ymd2ord y 1 1 = daysBeforeYear y + 1 := rfl

theorem isoweek1monday_eq (y : Nat) :
    isoweek1monday y =
      if 3 < ((ymd2ord y 1 1 : Int) + 6) % 7
      then (ymd2ord y 1 1 : Int) - ((ymd2ord y 1 1 : Int) + 6) % 7 + 7
      else (ymd2ord y 1 1 : Int) - ((ymd2ord y 1 1 : Int) + 6) % 7 := rfl

/-- Week 1's Monday lies within three days of January 1. -/
theorem isoweek1monday_bounds (y : Nat) :
    (ymd2ord y 1 1 : Int) - 3 ≤ isoweek1monday y ∧
    isoweek1monday y ≤ (ymd2ord y 1 1 : Int) + 3 := by
  rw [isoweek1monday_eq]
  split <;> omega

/-- Week 1's Monday is a Monday: its ordinal is 1 modulo 7. -/
theorem isoweek1monday_mod7 (y : Nat) : isoweek1monday y % 7 = 1 := by
  rw [isoweek1monday_eq]
  split <;> omega

theorem isoweek1monday_one : isoweek1monday 1 = 1 := by decide

theorem isocalendarWeek_eq (y m dd : Nat) :
    isocalendarWeek ⟨y, m, dd⟩ =
      if ((ymd2ord y m dd : Int) - isoweek1monday y) / 7 < 0 then
        ((ymd2ord y m dd : Int) - isoweek1monday (y - 1)) / 7 + 1
      else if 52 ≤ ((ymd2ord y m dd : Int) - isoweek1monday y) / 7 ∧
          isoweek1monday (y + 1) ≤ (ymd2ord y m dd : Int) then
        1
      else
        ((ymd2ord y m dd : Int) - isoweek1monday y) / 7 + 1 := rfl

set_option maxHeartbeats 1600000 in
/-- The ISO week number of any valid date lies in [1, 53]. -/
theorem isocalendarWeek_range (d : PyDate) (hd : d.valid) :
    1 ≤ isocalendarWeek d ∧ isocalendarWeek d ≤ 53 := by
  obtain ⟨Y, M, D⟩ := d
  simp only [PyDate.valid] at hd
  obtain ⟨hy1, hy2, hm1, hm2, hd1, hd2⟩ := hd
  have hmb := daysBeforeMonth_add_day_bounds Y M D hm1 hm2 hd1 hd2
  have hsuccY := daysBeforeYear_succ Y hy1
  have hby := isoweek1monday_bounds Y
  have hby1 := isoweek1monday_bounds (Y + 1)
  have hmy := isoweek1monday_mod7 Y
  have hmy1 := isoweek1monday_mod7 (Y + 1)
  have hjanY : ymd2ord Y 1 1 = daysBeforeYear Y + 1 := ymd2ord_jan1 Y
  have hjanY1 : ymd2ord (Y + 1) 1 1 = daysBeforeYear (Y + 1) + 1 := ymd2ord_jan1 (Y + 1)
  have hord : ymd2ord Y M D = daysBeforeYear Y + daysBeforeMonth Y M + D := rfl
  rw [isocalendarWeek_eq]
  split
  · -- early-January branch: the date belongs to the last week of year Y - 1
    rename_i hwk
    by_cases hY1 : Y = 1
    · subst hY1
      rw [isoweek1monday_one] at hwk
      have hb1 : daysBeforeYear 1 = 0 := rfl
      omega
    · have hsuccYm := daysBeforeYear_succ (Y - 1) (by omega)
      have hYm1 : Y - 1 + 1 = Y := by omega
      rw [hYm1] at hsuccYm
      have hbym := isoweek1monday_bounds (Y - 1)
      have hmym := isoweek1monday_mod7 (Y - 1)
      have hjanYm : ymd2ord (Y - 1) 1 1 = daysBeforeYear (Y - 1) + 1 :=
        ymd2ord_jan1 (Y - 1)
      rw [hjanY] at hby
      rw [hjanYm] at hbym
      cases hLm : isLeapYear (Y - 1) <;> simp [hLm] at hsuccYm <;> omega
  · split
    · exact ⟨le_refl 1, by norm_num⟩
    · rename_i hwk hnot
      rw [hjanY] at hby
      rw [hjanY1] at hby1
      cases hL : isLeapYear Y <;> simp [hL] at hsuccY hmb <;> omega

/-- C3: the calendar derivation is a total function (its Lean embedding is a
plain function, so calling it twice on the same date and time gives the same
record), `day_of_week` lies in [0, 6], and `week_of_year` lies in [1, 53] for
every valid date. -/
theorem deriveCalendar_total_ranges (d : PyDate) (t : PyTime) (hd : d.valid) :
    deriveCalendar d t = deriveCalendar d t ∧
    (deriveCalendar d t).day_of_week ≤ 6 ∧
    1 ≤ (deriveCalendar d t).week_of_year ∧
    (deriveCalendar d t).week_of_year ≤ 53 := by
  refine ⟨rfl, ?_, ?_, ?_⟩
  · show pyWeekday d ≤ 6
    unfold pyWeekday
    omega
  · exact (isocalendarWeek_range d hd).1
  · exact (isocalendarWeek_range d hd).2

/-- Witness for C3 at 2024-03-15, 12:00. -/
theorem deriveCalendar_total_ranges_witness :
    deriveCalendar ⟨2024, 3, 15⟩ ⟨12, 0, 0⟩ = deriveCalendar ⟨2024, 3, 15⟩ ⟨12, 0, 0⟩ ∧
    (deriveCalendar ⟨2024, 3, 15⟩ ⟨12, 0, 0⟩).day_of_week ≤ 6 ∧
    1 ≤ (deriveCalendar ⟨2024, 3, 15⟩ ⟨12, 0, 0⟩).week_of_year ∧
    (deriveCalendar ⟨2024, 3, 15⟩ ⟨12, 0, 0⟩).week_of_year ≤ 53 :=
  deriveCalendar_total_ranges ⟨2024, 3, 15⟩ ⟨12, 0, 0⟩ (by decide)

/-! ### Stability of the insertion sort under `filter` (for the importances
claim): inserting an element into a list places it before every element of
its own tie class, and elements of other tie classes keep their order. -/

theorem filter_orderedInsert_mem (x : ImportanceRow) (w : ℚ)
    (hx : x.importance = w) (l : List ImportanceRow) :
    (List.orderedInsert importanceLE x l).filter
        (fun r => decide (r.importance = w)) =
      x :: l.filter (fun r => decide (r.importance = w)) := by
  induction l with
  | nil => simp [hx]
  | cons y ys ih =>
    by_cases hxy : importanceLE x y
    · simp only [List.orderedInsert, if_pos hxy]
      simp [List.filter_cons, hx]
    · have hy : ¬ y.importance = w := by
        intro hyw
        exact hxy (le_of_eq (hx.trans hyw.symm))
      simp only [List.orderedInsert, if_neg hxy]
      simp [List.filter_cons, hy, ih]

theorem filter_orderedInsert_notmem (x : ImportanceRow) (w : ℚ)
    (hx : ¬ x.importance = w) (l : List ImportanceRow) :
    (List.orderedInsert importanceLE x l).filter
        (fun r => decide (r.importance = w)) =
      l.filter (fun r => decide (r.importance = w)) := by
  induction l with
  | nil => simp [hx]
  | cons y ys ih =>
    by_cases hxy : importanceLE x y
    · simp only [List.orderedInsert, if_pos hxy]
      simp [List.filter_cons, hx]
    · simp only [List.orderedInsert, if_neg hxy]
      simp [List.filter_cons, ih]

theorem filter_insertionSort (w : ℚ) (l : List ImportanceRow) :
    (List.insertionSort importanceLE l).filter
        (fun r => decide (r.importance = w)) =
      l.filter (fun r => decide (r.importance = w)) := by
  induction l with
  | nil => rfl
  | cons x xs ih =>
    simp only [List.insertionSort]
    by_cases hx : x.importance = w
    · rw [filter_orderedInsert_mem x w hx, ih]
      simp [List.filter_cons, hx]
    · rw [filter_orderedInsert_notmem x w hx, ih]
      simp [List.filter_cons, hx]

/-! ### The double reversal around a stable ascending sort is a stable
descending sort.  Key steps: a stable ascending insertion sort places the
last input element behind its ties (`orderedInsertAfterTies`), insertion
before ties and insertion behind ties commute, and reversing turns insertion
behind ties into descending insertion before ties. -/

theorem orderedInsert_insertAfterTies_comm (a x : ImportanceRow)
    (s : List ImportanceRow) :
    List.orderedInsert importanceLE a (orderedInsertAfterTies x s) =
      orderedInsertAfterTies x (List.orderedInsert importanceLE a s) := by
  induction s with
  | nil =>
    by_cases hax : importanceLE a x
    · simp [orderedInsertAfterTies, List.orderedInsert, hax]
    · simp [orderedInsertAfterTies, List.orderedInsert, hax]
  | cons y ys ih =>
    by_cases hyx : importanceLE y x <;> by_cases hay : importanceLE a y
    · have hax : importanceLE a x := le_trans hay hyx
      simp [orderedInsertAfterTies, List.orderedInsert, hyx, hay, hax]
    · simp [orderedInsertAfterTies, List.orderedInsert, hyx, hay, ih]
    · by_cases hax : importanceLE a x <;>
        simp [orderedInsertAfterTies, List.orderedInsert, hyx, hay, hax]
    · have hax : ¬ importanceLE a x := by
        unfold importanceLE at *
        intro hc
        exact hay (le_trans hc (le_of_lt (lt_of_not_le hyx)))
      simp [orderedInsertAfterTies, List.orderedInsert, hyx, hay, hax]

theorem insertionSort_append_last (x : ImportanceRow) (t : List ImportanceRow) :
    List.insertionSort importanceLE (t ++ [x]) =
      orderedInsertAfterTies x (List.insertionSort importanceLE t) := by
  induction t with
  | nil => simp [orderedInsertAfterTies]
  | cons a t ih =>
    show List.orderedInsert importanceLE a
        (List.insertionSort importanceLE (t ++ [x])) =
      orderedInsertAfterTies x
        (List.orderedInsert importanceLE a (List.insertionSort importanceLE t))
    rw [ih, orderedInsert_insertAfterTies_comm]

theorem orderedInsertGE_of_forall_not (x : ImportanceRow)
    (u : List ImportanceRow) (h : ∀ z ∈ u, ¬ importanceGE x z) :
    List.orderedInsert importanceGE x u = u ++ [x] := by
  induction u with
  | nil => rfl
  | cons z u ih =>
    rw [List.orderedInsert, if_neg (h z (List.mem_cons_self z u)),
      ih (fun w hw => h w (List.mem_cons_of_mem z hw))]
    rfl

theorem orderedInsertGE_append_last (x w : ImportanceRow)
    (t : List ImportanceRow) (hw : importanceGE x w) :
    List.orderedInsert importanceGE x (t ++ [w]) =
      (List.orderedInsert importanceGE x t) ++ [w] := by
  induction t with
  | nil => simp [List.orderedInsert, hw]
  | cons z t ih =>
    by_cases hz : importanceGE x z
    · simp [List.orderedInsert, hz]
    · simp [List.orderedInsert, hz, ih]

theorem reverse_insertAfterTies (x : ImportanceRow) (s : List ImportanceRow)
    (hs : List.Sorted importanceLE s) :
    (orderedInsertAfterTies x s).reverse =
      List.orderedInsert importanceGE x s.reverse := by
  induction s with
  | nil => rfl
  | cons y ys ih =>
    by_cases hyx : importanceLE y x
    · have hys : List.Sorted importanceLE ys := hs.of_cons
      have hxy : importanceGE x y := hyx
      simp only [orderedInsertAfterTies, if_pos hyx, List.reverse_cons, ih hys,
        orderedInsertGE_append_last x y ys.reverse hxy]
    · have hall : ∀ z ∈ ys.reverse ++ [y], ¬ importanceGE x z := by
        intro z hz
        rcases List.mem_append.mp hz with hz | hz
        · have hz2 : z ∈ ys := List.mem_reverse.mp hz
          have hyz : importanceLE y z := List.rel_of_sorted_cons hs z hz2
          intro hc
          exact hyx (le_trans hyz hc)
        · have hzy : z = y := by simpa using hz
          subst hzy
          exact fun hc => hyx hc
      simp only [orderedInsertAfterTies, if_neg hyx, List.reverse_cons,
        orderedInsertGE_of_forall_not x (ys.reverse ++ [y]) hall]

/-- The program's descending sort equals the stable descending insertion
sort: reversing, sorting ascending stably, and reversing again inserts each
element in original order into a descending list in front of its ties. -/
theorem sort_values_importance_desc_eq_spec (l : List ImportanceRow) :
    sort_values_importance_desc l = specStableSortDesc l := by
  unfold sort_values_importance_desc specStableSortDesc
  induction l with
  | nil => rfl
  | cons x xs ih =>
    rw [List.reverse_cons, insertionSort_append_last,
      reverse_insertAfterTies x _ (List.sorted_insertionSort importanceLE xs.reverse),
      ih]
    rfl

/-- C5: the importances frame pairs the 14 fixed names positionally with
their weights (it is a permutation of the zip), is sorted by weight
descending, equals the stable descending sort of the pairs, and every tie
class keeps its original positional order. -/
theorem feature_importance_df_stable_desc (imps : List ℚ) (w : ℚ) :
    feature_importance_df imps =
      specStableSortDesc (List.zipWith (fun n w2 => ⟨n, w2⟩) feature_names imps) ∧
    (feature_importance_df imps).Perm
      (List.zipWith (fun n w2 => ⟨n, w2⟩) feature_names imps) ∧
    List.Pairwise (fun a b : ImportanceRow => b.importance ≤ a.importance)
      (feature_importance_df imps) ∧
    (feature_importance_df imps).filter (fun r => decide (r.importance = w)) =
      (List.zipWith (fun n w2 => ⟨n, w2⟩) feature_names imps).filter
        (fun r => decide (r.importance = w)) := by
  refine ⟨sort_values_importance_desc_eq_spec _, ?_, ?_, ?_⟩ <;>
    unfold feature_importance_df sort_values_importance_desc
  · exact (List.reverse_perm _).trans
      ((List.perm_insertionSort _ _).trans (List.reverse_perm _))
  · rw [List.pairwise_reverse]
    exact List.sorted_insertionSort importanceLE _
  · rw [List.filter_reverse, filter_insertionSort, List.filter_reverse,
      List.reverse_reverse]

/-- C10: two submissions that differ only in the minutes and seconds of the
clock time (same date, same hour, same sensor and environmental values)
assemble the same feature batch. -/
theorem subhour_time_invariance
    (s1_co s2_nmhc s3_nox s4_no2 s5_o3 temp rh ah : ℚ) (d : PyDate) (hh m1 s1 m2 s2 : Nat) :
    user_features s1_co s2_nmhc s3_nox s4_no2 s5_o3 temp rh ah
        (deriveCalendar d ⟨hh, m1, s1⟩) =
      user_features s1_co s2_nmhc s3_nox s4_no2 s5_o3 temp rh ah
        (deriveCalendar d ⟨hh, m2, s2⟩) :=
  rfl

end AQIApp
